import Mathlib

/-!
Shallow embedding of the capture engine of `capture_lib` (screen/webcam capture
loops, input logging, event-frame correlation, validation, trajectory
segmentation, ledger merge) together with theorems settling the specification
claims C1..C10.

Conventions of the embedding:
* Python `int` is modelled as `Int` (or `Nat` for values that are provably
  nonnegative counters/indices, such as `frame_index`).
* Python `float` values that carry exact decimal data (seconds, coordinates)
  are modelled as `ℚ`; `int(x)` truncation toward zero is `pyInt`.
* Raw image bytes are modelled as `List Nat`.
* Stateful loops are modelled as explicit state-passing step functions; the
  per-tick nondeterminism of the environment (gate value, grab outcome,
  reader cell content, clock reading) is an explicit input of each step.
-/

/-- Raw sample bytes (`bytes` in the source). -/
abbrev Bytes := List Nat

/-- Python `int(q)` for a rational `q`: truncation toward zero. -/
def pyInt (q : ℚ) : Int := if 0 ≤ q then ⌊q⌋ else ⌈q⌉

/-- Python truthiness of an `Optional[bytes]` value: `None` and `b""` are falsy. -/
def bytesTruthy : Option Bytes → Bool
  | none => false
  | some bs => !bs.isEmpty

/-- `FrameRecord` from `capture_lib/screen_recorder.py`. -/
structure FrameRecord where
  frame_index : Nat
  t_ns : Int
  t_capture_ns : Option Int := none
  is_duplicate : Bool := false
  deriving DecidableEq, Repr

/-- `InputEvent` from `capture_lib/input_logging.py`. -/
structure InputEvent where
  t_ns : Int
  event_type : String
  key_code : Option Int := none
  mouse_x : Option ℚ := none
  mouse_y : Option ℚ := none
  mouse_button : Option String := none
  delta : Option ℚ := none
  frame_ref : Option Nat := none
  window_id : Option String := none
  session_id : Option String := none
  metadata : Option (List (String × String)) := none
  deriving DecidableEq, Repr

/-! ### Screen capture loop (`_MssScreenRecorder._capture_loop`) -/

/-- Outcome of one `sct.grab` + `_process_frame` attempt in the screen loop:
either the grab raised an exception, or it produced a processed result
(`none` models `_process_frame` returning `None`). -/
inductive ScreenGrab where
  | error : ScreenGrab
  | processed : Option Bytes → ScreenGrab
  deriving DecidableEq, Repr

/-- Environment input of one iteration of the screen capture loop: the value
of `capture_allowed_fn()`, the grab outcome (consulted only when the gate is
open), and the clock reading `capture_start_ns` taken just before the grab. -/
structure ScreenTickIn where
  gate : Bool
  grab : ScreenGrab
  now : Int
  deriving DecidableEq, Repr

/-- Mutable state of `_MssScreenRecorder` used by `_capture_loop`. -/
structure ScreenState where
  frame_index : Nat
  frame_records : List FrameRecord
  dropped_frames : Nat
  next_frame_time : Int
  last_frame_bytes : Option Bytes
  written : List Bytes
  deriving DecidableEq, Repr

/-- State of the screen recorder right before the first loop iteration:
`next_frame_time = time.monotonic_ns()` at loop entry. -/
def initScreenState (t0 : Int) : ScreenState :=
  { frame_index := 0, frame_records := [], dropped_frames := 0,
    next_frame_time := t0, last_frame_bytes := none, written := [] }

/-- One iteration of `_MssScreenRecorder._capture_loop` (the sleep before the
gate check does not change the recorder state and is omitted).  When the gate
is closed the loop only advances `next_frame_time` and `continue`s; a grab
exception increments `dropped_frames` and `continue`s *without* advancing
`next_frame_time`; a falsy processed frame increments `dropped_frames`; a
truthy frame appends a real `FrameRecord` at the current `frame_index`. -/
def screenTick (frame_interval_ns : Int) (inp : ScreenTickIn) (s : ScreenState) :
    ScreenState :=
  if !inp.gate then
    { s with next_frame_time := s.next_frame_time + frame_interval_ns }
  else
    match inp.grab with
    | ScreenGrab.error => { s with dropped_frames := s.dropped_frames + 1 }
    | ScreenGrab.processed fb =>
      let s1 :=
        if bytesTruthy fb then
          { s with
            frame_records := s.frame_records ++
              [{ frame_index := s.frame_index, t_ns := inp.now,
                 t_capture_ns := some inp.now, is_duplicate := false }],
            frame_index := s.frame_index + 1,
            written := s.written ++ [fb.getD []],
            last_frame_bytes := fb }
        else
          { s with dropped_frames := s.dropped_frames + 1 }
      { s1 with next_frame_time := s1.next_frame_time + frame_interval_ns }

/-- Run of the screen capture loop over a finite sequence of tick inputs. -/
def screenRun (frame_interval_ns : Int) (inps : List ScreenTickIn)
    (s : ScreenState) : ScreenState :=
  inps.foldl (fun st i => screenTick frame_interval_ns i st) s

/-! ### Webcam capture loop (`WebcamRecorder._capture_frames_loop`) -/

/-- Non-`None` result of `WebcamRecorder._consume_latest_frame`: the latest
frame from the reader cell, its capture time, and whether it is stale
(capture time equal to the previously consumed one). -/
structure ConsumedFrame where
  bytes : Bytes
  capture_ns : Option Int
  stale : Bool
  deriving DecidableEq, Repr

/-- Environment input of one webcam tick: the gate value and the content the
reader cell would yield (`_consume_latest_frame` is consulted only when the
gate is open). -/
structure WebcamTickIn where
  gate : Bool
  reader : Option ConsumedFrame
  deriving DecidableEq, Repr

/-- Mutable state of `WebcamRecorder` used by `_capture_frames_loop`.
`written` records the bytes handed to `video_writer.write`. -/
structure WebcamState where
  frame_index : Nat
  frame_records : List FrameRecord
  padded_frames : Nat
  dropped_frames : Nat
  next_frame_time : Int
  last_frame_bytes : Option Bytes
  blank_frame : Option Bytes
  written : List (Option Bytes)
  deriving DecidableEq, Repr

/-- Webcam recorder state right before the first loop iteration (after
`_init_devices` has primed `last_frame_bytes` and `blank_frame`). -/
def initWebcamState (t0 : Int) (last blank : Option Bytes) : WebcamState :=
  { frame_index := 0, frame_records := [], padded_frames := 0,
    dropped_frames := 0, next_frame_time := t0, last_frame_bytes := last,
    blank_frame := blank, written := [] }

/-- Python `x or y` for `x : Optional[int]`: `x` when it is truthy (non-`None`
and nonzero), else `y`. -/
def pyOrInt (x : Option Int) (y : Int) : Int :=
  match x with
  | some v => if v ≠ 0 then v else y
  | none => y

/-- Python truthiness of an `Optional[int]`. -/
def intTruthy : Option Int → Bool
  | none => false
  | some v => v != 0

/-- One completed iteration of `WebcamRecorder._capture_frames_loop` (an
iteration that reaches `target_ns = next_frame_time`; the sleep-and-continue
branch does not change the state).  Mirrors the duplicate/real decision tree
of the source, including the Python truthiness test
`capture_ns if (capture_ns and not duplicate) else None`. -/
def webcamTick (frame_interval_ns : Int) (inp : WebcamTickIn) (s : WebcamState) :
    WebcamState :=
  let target := s.next_frame_time
  let frame_info := if inp.gate then inp.reader else none
  match frame_info with
  | none =>
    -- `not allowed or frame_info is None`: fall back to the last real frame
    -- or the blank placeholder, mark duplicate, store no capture time.
    let fb := match s.last_frame_bytes with
      | some b => some b
      | none => s.blank_frame
    -- the final `if frame_bytes is None: frame_bytes = self.blank_frame`
    let fb := match fb with
      | some b => some b
      | none => s.blank_frame
    { s with
      frame_records := s.frame_records ++
        [{ frame_index := s.frame_index, t_ns := target,
           t_capture_ns := none, is_duplicate := true }],
      frame_index := s.frame_index + 1,
      padded_frames := s.padded_frames + 1,
      written := s.written ++ [fb],
      next_frame_time := s.next_frame_time + frame_interval_ns }
  | some cf =>
    if cf.stale ∧ s.last_frame_bytes ≠ none then
      { s with
        frame_records := s.frame_records ++
          [{ frame_index := s.frame_index, t_ns := target,
             t_capture_ns := none, is_duplicate := true }],
        frame_index := s.frame_index + 1,
        padded_frames := s.padded_frames + 1,
        written := s.written ++ [s.last_frame_bytes],
        next_frame_time := s.next_frame_time + frame_interval_ns }
    else
      let capture_val := pyOrInt cf.capture_ns target
      { s with
        frame_records := s.frame_records ++
          [{ frame_index := s.frame_index, t_ns := target,
             t_capture_ns := if intTruthy (some capture_val) then some capture_val else none,
             is_duplicate := false }],
        frame_index := s.frame_index + 1,
        last_frame_bytes := some cf.bytes,
        written := s.written ++ [some cf.bytes],
        next_frame_time := s.next_frame_time + frame_interval_ns }

/-- Run of the webcam capture loop over a finite sequence of tick inputs. -/
def webcamRun (frame_interval_ns : Int) (inps : List WebcamTickIn)
    (s : WebcamState) : WebcamState :=
  inps.foldl (fun st i => webcamTick frame_interval_ns i st) s

/-! ### Cadence scheduler (`CaptureCoordinator`, `coordinator.py`) -/

/-- The timing fields of `CaptureCoordinator`: `__init__` sets
`frame_interval_ns = int(1e9 / fps)` and `start_capture` anchors
`start_time_ns` on the monotonic clock. -/
structure CaptureCoordinator where
  fps : Nat
  frame_interval_ns : Int
  start_time_ns : Int
  deriving DecidableEq, Repr

/-- `CaptureCoordinator(fps)` followed by `start_capture()` at monotonic time
`start`. -/
def mkCoordinator (fps : Nat) (start : Int) : CaptureCoordinator :=
  { fps := fps, frame_interval_ns := pyInt ((10 : ℚ) ^ 9 / fps),
    start_time_ns := start }

/-- The `target_time` computed by `CaptureCoordinator.create_capture_event`:
`start_time_ns + frame_index * frame_interval_ns`. -/
def createCaptureEventTarget (c : CaptureCoordinator) (frame_index : Nat) : Int :=
  c.start_time_ns + frame_index * c.frame_interval_ns

/-- The incremental `next_frame_time += interval_ns` formulation used by the
capture loops: the value of `next_frame_time` after `k` advances from the
anchor. -/
def nextFrameTimeIter (anchor interval : Int) : Nat → Int
  | 0 => anchor
  | k + 1 => nextFrameTimeIter anchor interval k + interval

/-! ### Event-frame correlator (`session._assign_frame_refs`) -/

/-- Linear model of Python `bisect.bisect_right(l, x)`: on the sorted lists
used by the correlator it returns the number of leading elements that are
`≤ x`, i.e. the insertion point to the right of every element equal to `x`. -/
def bisect_right (l : List Int) (x : Int) : Nat :=
  match l with
  | [] => 0
  | a :: l => if x < a then 0 else bisect_right l x + 1

/-- The loop body of `_assign_frame_refs` for a single event time `t`:
`idx = bisect_right(frame_times, t) - 1`, clamped into range, then
`frame_indices[idx]` (Python ints are modelled, so the pre-clamp index lives
in `Int`). -/
def frameRefFor (frame_times : List Int) (frame_indices : List Nat) (t : Int) :
    Nat :=
  let idx0 : Int := (bisect_right frame_times t : Int) - 1
  let idx : Int :=
    if idx0 < 0 then 0
    else if (frame_indices.length : Int) ≤ idx0 then (frame_indices.length : Int) - 1
    else idx0
  frame_indices.getD idx.toNat 0

/-- `session._assign_frame_refs`: returns the event list with `frame_ref`
assigned (the source mutates the events in place). -/
def assign_frame_refs (events : List InputEvent) (frames : List FrameRecord) :
    List InputEvent :=
  if events = [] ∨ frames = [] then events
  else
    let frame_times := frames.map (fun fr => fr.t_ns)
    let frame_indices := frames.map (fun fr => fr.frame_index)
    events.map (fun ev =>
      { ev with frame_ref := some (frameRefFor frame_times frame_indices ev.t_ns) })

/-- Modelled from the spec's words, for comparison with `assign_frame_refs`
(refinement): the `frame_index` of the latest frame whose time is `≤ t`,
clamped to the first frame when every frame is later than `t`. -/
def specLatestFrameRef (frames : List FrameRecord) (t : Int) : Nat :=
  match (frames.filter (fun fr => fr.t_ns ≤ t)).getLast? with
  | some fr => fr.frame_index
  | none => (frames.headD { frame_index := 0, t_ns := 0 }).frame_index

/-! ### Validation (`session.validate_capture_data`) -/

/-- A Python list of `Int` timestamps is equal to `sorted(itself)` iff it is
non-decreasing; this is the executable form of that test. -/
def nonDecreasing : List Int → Bool
  | [] => true
  | [_] => true
  | a :: b :: l => decide (a ≤ b) && nonDecreasing (b :: l)

/-- Successive differences `l[i+1] - l[i]` (the `actual_intervals` list). -/
def successiveDiffs : List Int → List Int
  | a :: b :: l => (b - a) :: successiveDiffs (b :: l)
  | _ => []

/-- Python `max(gen, default=0)` over the frame indices. -/
def pyMaxNat (l : List Nat) : Nat := l.foldl max 0

/-- Validation errors (`validation["errors"]` entries; the source stores
formatted strings, the embedding keeps the structured fact). -/
inductive VErr where
  | events_not_monotonic : VErr
  | frames_not_monotonic : VErr
  deriving DecidableEq, Repr

/-- Validation warnings (`validation["warnings"]` entries; the source stores
formatted strings, the embedding keeps the structured data each message
carries). -/
inductive VWarn where
  | cadence_deviation (deviation : ℚ) : VWarn
  | frame_index_gap (expected actual : Nat) : VWarn
  | webcam_skew (diff_ns : Int) : VWarn
  deriving DecidableEq, Repr

/-- The `validation["stats"]` entries written by `validate_capture_data`. -/
structure ValidationStats where
  avg_frame_interval_ns : Option ℚ := none
  expected_frame_interval_ns : Option Int := none
  total_events : Nat := 0
  total_frames : Nat := 0
  total_webcam_frames : Nat := 0
  deriving DecidableEq, Repr

/-- The result dictionary of `validate_capture_data`. -/
structure ValidationResult where
  valid : Bool
  errors : List VErr
  warnings : List VWarn
  stats : ValidationStats
  deriving DecidableEq, Repr

/-- The expected frame interval `int(1e9 / fps)` in nanoseconds. -/
def expectedFrameIntervalNs (fps : Nat) : Int := pyInt ((10 : ℚ) ^ 9 / fps)

/-- The cadence deviation `abs(avg_interval - expected) / expected` computed
by `validate_capture_data` for a given frame-time list (meaningful when the
list has at least two entries). -/
def cadenceDeviation (frame_times : List Int) (fps : Nat) : ℚ :=
  let expected : ℚ := expectedFrameIntervalNs fps
  let intervals := successiveDiffs frame_times
  let avg : ℚ := ((intervals.foldl (· + ·) 0 : Int) : ℚ) / intervals.length
  |avg - expected| / expected

/-- The cadence check of `validate_capture_data`: when there are at least two
screen frames and the mean inter-frame interval deviates from the target
interval by more than 10%, one cadence warning is produced. -/
def cadenceWarns (screen_frames : List FrameRecord) (fps : Nat) : List VWarn :=
  let frame_times := screen_frames.map (fun fr => fr.t_ns)
  if 1 < screen_frames.length then
    (if cadenceDeviation frame_times fps > 1 / 10 then
      [VWarn.cadence_deviation (cadenceDeviation frame_times fps)] else [])
  else []

/-- The missing-frame check of `validate_capture_data`. -/
def gapWarns (screen_frames : List FrameRecord) : List VWarn :=
  if screen_frames ≠ [] then
    let expected_frames := screen_frames.length
    let actual_frames :=
      pyMaxNat (screen_frames.map (fun fr => fr.frame_index)) + 1
    if actual_frames ≠ expected_frames then
      [VWarn.frame_index_gap expected_frames actual_frames] else []
  else []

/-- The webcam-sync check of `validate_capture_data`. -/
def skewWarns (webcam_frames : Option (List FrameRecord))
    (screen_frames : List FrameRecord) : List VWarn :=
  match webcam_frames with
  | some (w :: _) =>
    match screen_frames with
    | s :: _ =>
      let time_diff := |w.t_ns - s.t_ns|
      if time_diff > 10 ^ 9 then [VWarn.webcam_skew time_diff] else []
    | [] => []
  | _ => []

/-- `session.validate_capture_data`.  Mirrors the source check by check:
monotonicity failures go to `errors`, cadence deviation over 10%, frame-index
gaps and webcam skew go to `warnings`, and `valid` is set at the end to
`len(errors) == 0`. -/
def validate_capture_data (events : List InputEvent)
    (screen_frames : List FrameRecord)
    (webcam_frames : Option (List FrameRecord) := none) (fps : Nat := 30) :
    ValidationResult :=
  let event_times := events.map (fun ev => ev.t_ns)
  let frame_times := screen_frames.map (fun fr => fr.t_ns)
  let errors : List VErr :=
    (if events ≠ [] ∧ ¬nonDecreasing event_times then
       [VErr.events_not_monotonic] else []) ++
    (if screen_frames ≠ [] ∧ ¬nonDecreasing frame_times then
       [VErr.frames_not_monotonic] else [])
  let stats : ValidationStats :=
    { avg_frame_interval_ns :=
        if 1 < screen_frames.length then
          some (((successiveDiffs frame_times).foldl (· + ·) 0 : ℚ) /
            (successiveDiffs frame_times).length)
        else none,
      expected_frame_interval_ns :=
        if 1 < screen_frames.length then some (expectedFrameIntervalNs fps)
        else none,
      total_events := events.length,
      total_frames := screen_frames.length,
      total_webcam_frames := (webcam_frames.getD []).length }
  { valid := errors.isEmpty,
    errors := errors,
    warnings := cadenceWarns screen_frames fps ++ gapWarns screen_frames ++
      skewWarns webcam_frames screen_frames,
    stats := stats }

/-- Whether a warning is the cadence-deviation warning. -/
def isCadenceWarn : VWarn → Bool
  | VWarn.cadence_deviation _ => true
  | _ => false

/-! ### Trajectory segmentation (`session.segment_trajectories`) -/

/-- Python `min(...)` over the (nonempty) event timestamps. -/
def pyMinInt (l : List Int) : Int :=
  match l with
  | [] => 0
  | a :: l => l.foldl min a

/-- Python `max(...)` over the (nonempty) event timestamps. -/
def pyMaxInt (l : List Int) : Int :=
  match l with
  | [] => 0
  | a :: l => l.foldl max a

/-- Zero-padded four-digit rendering used by `f"traj_{n:04d}"`. -/
def pad4 (n : Nat) : String :=
  if n < 10 then "000" ++ toString n
  else if n < 100 then "00" ++ toString n
  else if n < 1000 then "0" ++ toString n
  else toString n

/-- The trajectory dictionary built by `segment_trajectories` for one emitted
window. -/
structure Trajectory where
  trajectory_id : String
  start_time_ns : Int
  end_time_ns : Int
  duration_s : ℚ
  event_count : Nat
  frame_count : Nat
  events_start_idx : Nat
  frames_start_idx : Nat
  overlap_with_previous : ℚ
  quality_score : ℚ

/-- The trajectory built for the window `[cur, curEnd]`, mirroring the body of
the `if traj_events and traj_frames` branch. -/
def mkTrajectory (events : List InputEvent) (screen_frames : List FrameRecord)
    (overlap_s : ℚ) (start_time_ns cur curEnd : Int) (nAcc : Nat)
    (traj_events : List InputEvent) (traj_frames : List FrameRecord) :
    Trajectory :=
  { trajectory_id := "traj_" ++ pad4 nAcc,
    start_time_ns := cur,
    end_time_ns := curEnd,
    duration_s := ((curEnd - cur : Int) : ℚ) / 10 ^ 9,
    event_count := traj_events.length,
    frame_count := traj_frames.length,
    events_start_idx :=
      events.length - (events.filter (fun ev => cur ≤ ev.t_ns)).length,
    frames_start_idx :=
      screen_frames.length -
        (screen_frames.filter (fun fr => cur ≤ fr.t_ns)).length,
    overlap_with_previous := if start_time_ns < cur then overlap_s else 0,
    quality_score := min 1 ((traj_events.length : ℚ) / 100) }

/-- The `while current_start < end_time_ns` loop of `segment_trajectories`,
with explicit fuel: `none` means the fuel ran out before the loop condition
became false (the source loop would still be running). -/
def segLoop (events : List InputEvent) (screen_frames : List FrameRecord)
    (duration_ns overlap_ns start_time_ns end_time_ns : Int) (overlap_s : ℚ) :
    Nat → Int → List Trajectory → Option (List Trajectory)
  | 0, _, _ => none
  | fuel + 1, cur, acc =>
    if cur < end_time_ns then
      let curEnd := min (cur + duration_ns) end_time_ns
      let traj_events := events.filter (fun ev => cur ≤ ev.t_ns ∧ ev.t_ns ≤ curEnd)
      let traj_frames :=
        screen_frames.filter (fun fr => cur ≤ fr.t_ns ∧ fr.t_ns ≤ curEnd)
      let acc' :=
        if traj_events ≠ [] ∧ traj_frames ≠ [] then
          acc ++ [mkTrajectory events screen_frames overlap_s start_time_ns cur
            curEnd acc.length traj_events traj_frames]
        else acc
      segLoop events screen_frames duration_ns overlap_ns start_time_ns
        end_time_ns overlap_s fuel (cur + (duration_ns - overlap_ns)) acc'
    else some acc

/-- `session.segment_trajectories`, with the loop given explicit fuel (the
source runs the loop unboundedly; `none` records that it would not have
finished within `fuel` iterations). -/
def segment_trajectories (fuel : Nat) (events : List InputEvent)
    (screen_frames : List FrameRecord) (trajectory_duration_s : ℚ := 60)
    (overlap_s : ℚ := 5) : Option (List Trajectory) :=
  if events = [] ∨ screen_frames = [] then some []
  else
    let start_time_ns := pyMinInt (events.map (fun ev => ev.t_ns))
    let end_time_ns := pyMaxInt (events.map (fun ev => ev.t_ns))
    let trajectory_duration_ns := pyInt (trajectory_duration_s * 10 ^ 9)
    let overlap_ns := pyInt (overlap_s * 10 ^ 9)
    segLoop events screen_frames trajectory_duration_ns overlap_ns
      start_time_ns end_time_ns overlap_s fuel start_time_ns []

/-- Nontermination of the segmentation loop from configuration
`(duration_ns, overlap_ns)` at span `[start_time_ns, end_time_ns]`: no amount
of fuel makes the loop finish. -/
def segLoopDiverges (events : List InputEvent)
    (screen_frames : List FrameRecord)
    (duration_ns overlap_ns start_time_ns end_time_ns : Int) (overlap_s : ℚ) :
    Prop :=
  ∀ (fuel : Nat) (acc : List Trajectory),
    segLoop events screen_frames duration_ns overlap_ns start_time_ns
      end_time_ns overlap_s fuel start_time_ns acc = none

/-! ### Ledger merge (`session.write_events`) -/

/-- One row of the merged events table built by `write_events`. -/
structure Row where
  t_ns : Int
  t_capture_ns : Option Int
  is_duplicate : Option Bool
  event_type : String
  stream : String
  key_code : Option Int
  mouse_x : Option ℚ
  mouse_y : Option ℚ
  mouse_button : Option String
  delta : Option ℚ
  frame_ref : Option Nat
  window_id : Option String
  session_id : Option String
  metadata : Option (List (String × String))
  deriving DecidableEq, Repr

/-- The row built for an input event. -/
def evRow (ev : InputEvent) : Row :=
  { t_ns := ev.t_ns, t_capture_ns := none, is_duplicate := none,
    event_type := ev.event_type, stream := "input", key_code := ev.key_code,
    mouse_x := ev.mouse_x, mouse_y := ev.mouse_y,
    mouse_button := ev.mouse_button, delta := ev.delta,
    frame_ref := ev.frame_ref, window_id := ev.window_id,
    session_id := ev.session_id, metadata := ev.metadata }

/-- The row built for a screen or webcam frame record. -/
def frRow (stream : String) (window_id session_id : String)
    (fr : FrameRecord) : Row :=
  { t_ns := fr.t_ns, t_capture_ns := fr.t_capture_ns,
    is_duplicate := some fr.is_duplicate, event_type := "frame",
    stream := stream, key_code := none, mouse_x := none, mouse_y := none,
    mouse_button := none, delta := none, frame_ref := some fr.frame_index,
    window_id := some window_id, session_id := some session_id,
    metadata := none }

/-- The unsorted row list of `write_events`: input-event rows, then screen
rows, then webcam rows, each block in original order. -/
def rawRows (events : List InputEvent) (screen_frames : List FrameRecord)
    (webcam_frames : Option (List FrameRecord)) (window_id session_id : String) :
    List Row :=
  events.map evRow ++ screen_frames.map (frRow "screen" window_id session_id) ++
    (webcam_frames.getD []).map (frRow "webcam" window_id session_id)

/-- The order a stable sort on key `t_ns` establishes on index-decorated rows:
strictly earlier key, or equal key and not-later original position.  This is
the characteristic order of `df.sort_values("t_ns", kind="mergesort")`. -/
def rowLe (a b : Nat × Row) : Prop :=
  a.2.t_ns < b.2.t_ns ∨ (a.2.t_ns = b.2.t_ns ∧ a.1 ≤ b.1)

instance : DecidableRel rowLe := fun a b => by
  unfold rowLe; infer_instance

instance : IsTotal (Nat × Row) rowLe := by
  constructor
  intro a b
  rcases lt_trichotomy a.2.t_ns b.2.t_ns with h | h | h
  · exact Or.inl (Or.inl h)
  · rcases Nat.le_total a.1 b.1 with h' | h'
    · exact Or.inl (Or.inr ⟨h, h'⟩)
    · exact Or.inr (Or.inr ⟨h.symm, h'⟩)
  · exact Or.inr (Or.inl h)

instance : IsTrans (Nat × Row) rowLe := by
  constructor
  intro a b c hab hbc
  rcases hab with h | ⟨he, hi⟩
  · rcases hbc with h' | ⟨he', _⟩
    · exact Or.inl (h.trans h')
    · exact Or.inl (he' ▸ h)
  · rcases hbc with h' | ⟨he', hi'⟩
    · exact Or.inl (he ▸ h')
    · exact Or.inr ⟨he.trans he', hi.trans hi'⟩

/-- The merged, time-sorted ledger of `write_events` (the sorted dataframe
row list; persistence to parquet/csv is outside the embedding): a stable sort
by `t_ns` of the concatenated per-stream rows, realised as the sort of the
position-decorated rows by `rowLe`. -/
def write_events (events : List InputEvent) (screen_frames : List FrameRecord)
    (webcam_frames : Option (List FrameRecord)) (window_id session_id : String) :
    List Row :=
  (List.insertionSort rowLe
    (rawRows events screen_frames webcam_frames window_id session_id).enum).map
    Prod.snd

/-! ### Input logger (`input_logging.InputLogger._emit`) -/

/-- The window bounding box handed to the input logger. -/
structure WindowBbox where
  left : ℚ
  top : ℚ
  width : ℚ
  height : ℚ
  deriving DecidableEq, Repr

/-- The keyword arguments a listener callback passes to `_emit`. -/
structure EmitArgs where
  event_type : String
  key_code : Option Int := none
  mouse_x : Option ℚ := none
  mouse_y : Option ℚ := none
  mouse_button : Option String := none
  delta : Option ℚ := none
  metadata : Option (List (String × String)) := none
  deriving DecidableEq, Repr

/-- Python `{**m, k: v}` on a string-keyed dict modelled as an association
list: replaces the value in place if the key exists, otherwise appends. -/
def dictUpsert (m : List (String × String)) (k v : String) :
    List (String × String) :=
  if m.any (fun p => p.1 = k) then
    m.map (fun p => if p.1 = k then (k, v) else p)
  else m ++ [(k, v)]

/-- `InputLogger._emit`: returns `none` when `capture_allowed_fn()` is false
(no event is queued), otherwise the queued `InputEvent`.  When a window bbox
with positive width and height is configured and both mouse coordinates are
present, the coordinates are rescaled to window-relative fractions and the
absolute values are preserved in the metadata. -/
def inputLoggerEmit (allowed : Bool) (bbox : Option WindowBbox)
    (window_id session_id : String) (now : Int) (a : EmitArgs) :
    Option InputEvent :=
  if !allowed then none
  else
    let md0 := a.metadata.getD []
    let step :=
      match bbox, a.mouse_x, a.mouse_y with
      | some b, some x, some y =>
        if 0 < b.width ∧ 0 < b.height then
          ((some ((x - b.left) / b.width), some ((y - b.top) / b.height)),
            dictUpsert (dictUpsert md0 "abs_x" (toString x)) "abs_y" (toString y))
        else ((a.mouse_x, a.mouse_y), md0)
      | _, _, _ => ((a.mouse_x, a.mouse_y), md0)
    some
      { t_ns := now, event_type := a.event_type, key_code := a.key_code,
        mouse_x := step.1.1, mouse_y := step.1.2,
        mouse_button := a.mouse_button, delta := a.delta, frame_ref := none,
        window_id := some window_id, session_id := some session_id,
        metadata := if step.2 = [] then none else some step.2 }

/-! ### Concrete inputs used by the example claims -/

/-- The `frame_bytes = self.last_frame_bytes or self.blank_frame` fallback of
the webcam loop's duplicate path. -/
def lastOrBlank (s : WebcamState) : Option Bytes :=
  match s.last_frame_bytes with
  | some b => some b
  | none => s.blank_frame

/-- The timing-and-count summary of a trajectory:
`(start_time_ns, end_time_ns, event_count, frame_count)`. -/
def trajSummary (tr : Trajectory) : Int × Int × Nat × Nat :=
  (tr.start_time_ns, tr.end_time_ns, tr.event_count, tr.frame_count)

/-- An input event that only carries a timestamp and a kind. -/
def mkEv (t : Int) (ty : String) : InputEvent := { t_ns := t, event_type := ty }

/-- A real (non-duplicate) screen frame record at target time `t`. -/
def mkFr (idx : Nat) (t : Int) : FrameRecord :=
  { frame_index := idx, t_ns := t, t_capture_ns := some t, is_duplicate := false }

/-- Frame stream with target times `[0, 100, 200]` ns (spec correlator example). -/
def frames310 : List FrameRecord := [mkFr 0 0, mkFr 1 100, mkFr 2 200]

/-- Events at `t = 150`, `t = -5` and `t = 10_000` ns (spec correlator example). -/
def evs310 : List InputEvent :=
  [mkEv 150 "key_down", mkEv (-5) "key_down", mkEv 10000 "key_down"]

/-- Screen frames with the literal `t_ns` values `[0, 33, 67, 100]` of the
spec's cadence example, read as nanoseconds. -/
def framesLit33 : List FrameRecord :=
  [mkFr 0 0, mkFr 1 33, mkFr 2 67, mkFr 3 100]

/-- Screen frames spaced one 30-fps cadence interval apart
(`[0, 33333333, 66666667, 100000000]` ns). -/
def framesNs33 : List FrameRecord :=
  [mkFr 0 0, mkFr 1 33333333, mkFr 2 66666667, mkFr 3 100000000]

/-- Events spanning 130 seconds (at 0 s, 57 s, 112 s, 130 s), one in each
candidate trajectory window. -/
def ev130 : List InputEvent :=
  [mkEv 0 "key_down", mkEv 57000000000 "key_down", mkEv 112000000000 "key_down",
   mkEv 130000000000 "key_down"]

/-- Screen frames at the same four instants as `ev130`. -/
def fr130 : List FrameRecord :=
  [mkFr 0 0, mkFr 1 57000000000, mkFr 2 112000000000, mkFr 3 130000000000]

/-- Events spanning 10 seconds, used for the degenerate-configuration run. -/
def ev8 : List InputEvent := [mkEv 0 "key_down", mkEv 10000000000 "key_down"]

/-- A single screen frame at time 0, used for the degenerate-configuration run. -/
def fr8 : List FrameRecord := [mkFr 0 0]

/-! ### Helper lemmas -/

/-- The executable monotonicity test agrees with `List.Chain' (· ≤ ·)`. -/
lemma nonDecreasing_iff_chain (l : List Int) :
    nonDecreasing l = true ↔ List.Chain' (· ≤ ·) l := by
  induction l with
  | nil => simp [nonDecreasing]
  | cons a l ih =>
    cases l with
    | nil => simp [nonDecreasing]
    | cons b l =>
      rw [nonDecreasing]
      simp only [Bool.and_eq_true, decide_eq_true_eq, List.chain'_cons, ih]

/-! ### C5: cadence scheduler -/

/-- C5: the scheduler derives `interval_ns = int(1e9 / fps)` (concretely
`33333333` ns at 30 fps), the `create_capture_event` deadline of frame `k`
equals the deadline of frame `0` plus `k * interval_ns` regardless of how late
any tick ran, and the same closed form holds for the incremental
`next_frame_time += interval_ns` formulation used by the capture loops. -/
theorem scheduler_anchor_property :
    (∀ (fps : Nat) (start : Int),
      (mkCoordinator fps start).frame_interval_ns = pyInt ((10 : ℚ) ^ 9 / fps)) ∧
    (mkCoordinator 30 0).frame_interval_ns = 33333333 ∧
    (∀ (fps : Nat) (start : Int) (k : Nat),
      createCaptureEventTarget (mkCoordinator fps start) k =
        createCaptureEventTarget (mkCoordinator fps start) 0 +
          k * (mkCoordinator fps start).frame_interval_ns) ∧
    (∀ (anchor interval : Int) (k : Nat),
      nextFrameTimeIter anchor interval k = anchor + k * interval) := by
  refine ⟨fun _ _ => rfl, ?_, fun fps start k => ?_, fun anchor interval k => ?_⟩
  · show pyInt ((10 : ℚ) ^ 9 / 30) = 33333333
    rw [pyInt, if_pos (by norm_num)]
    norm_num
  · simp [createCaptureEventTarget]
  · induction k with
    | zero => simp [nextFrameTimeIter]
    | succ k ih =>
      rw [nextFrameTimeIter, ih]
      push_cast
      ring

/-! ### C3: validation verdict -/

/-- C3: `validate_capture_data` returns a `{valid, errors, warnings, stats}`
result whose `valid` flag is false exactly when a monotonicity violation was
detected (the event `t_ns` sequence or the screen-frame `t_ns` sequence is
not non-decreasing); equivalently `valid` holds iff `errors` is empty, so the
cadence/gap/skew findings, which go to `warnings`, never make `valid` false. -/
theorem validate_valid_iff_monotone :
    ∀ (events : List InputEvent) (screen_frames : List FrameRecord)
      (webcam_frames : Option (List FrameRecord)) (fps : Nat),
      ((validate_capture_data events screen_frames webcam_frames fps).valid = true ↔
        (List.Chain' (· ≤ ·) (events.map (fun ev => ev.t_ns)) ∧
         List.Chain' (· ≤ ·) (screen_frames.map (fun fr => fr.t_ns)))) ∧
      ((validate_capture_data events screen_frames webcam_frames fps).valid = true ↔
        (validate_capture_data events screen_frames webcam_frames fps).errors = []) := by
  intro events screen_frames webcam_frames fps
  have hval :
      (validate_capture_data events screen_frames webcam_frames fps).valid =
        ((if events ≠ [] ∧ ¬nonDecreasing (events.map (fun ev => ev.t_ns)) then
            [VErr.events_not_monotonic] else []) ++
          (if screen_frames ≠ [] ∧
              ¬nonDecreasing (screen_frames.map (fun fr => fr.t_ns)) then
            [VErr.frames_not_monotonic] else [])).isEmpty := rfl
  have herr :
      (validate_capture_data events screen_frames webcam_frames fps).errors =
        ((if events ≠ [] ∧ ¬nonDecreasing (events.map (fun ev => ev.t_ns)) then
            [VErr.events_not_monotonic] else []) ++
          (if screen_frames ≠ [] ∧
              ¬nonDecreasing (screen_frames.map (fun fr => fr.t_ns)) then
            [VErr.frames_not_monotonic] else [])) := rfl
  constructor
  · rw [hval]
    rw [← nonDecreasing_iff_chain, ← nonDecreasing_iff_chain]
    rcases hev : events with _ | ⟨e, evs⟩ <;>
      rcases hfr : screen_frames with _ | ⟨f, frs⟩ <;>
        split_ifs with h1 h2 h2 <;>
          simp_all [nonDecreasing]
  · rw [hval, herr]
    rw [List.isEmpty_iff]

lemma screenRun_nil (interval : Int) (s : ScreenState) :
    screenRun interval [] s = s := rfl

lemma screenRun_cons (interval : Int) (i : ScreenTickIn) (l : List ScreenTickIn)
    (s : ScreenState) :
    screenRun interval (i :: l) s = screenRun interval l (screenTick interval i s) := rfl

lemma webcamRun_nil (interval : Int) (s : WebcamState) :
    webcamRun interval [] s = s := rfl

lemma webcamRun_cons (interval : Int) (i : WebcamTickIn) (l : List WebcamTickIn)
    (s : WebcamState) :
    webcamRun interval (i :: l) s = webcamRun interval l (webcamTick interval i s) := rfl

/-- A closed-gate webcam tick appends one duplicate record carrying no capture
time, pads, writes the last known bytes (or the blank placeholder), advances
the index and the deadline, and leaves everything else alone — independently
of whatever the reader cell holds. -/
lemma webcamTick_gate_closed (interval : Int) (r : Option ConsumedFrame)
    (s : WebcamState) :
    webcamTick interval { gate := false, reader := r } s =
      { s with
        frame_records := s.frame_records ++
          [{ frame_index := s.frame_index, t_ns := s.next_frame_time,
             t_capture_ns := none, is_duplicate := true }],
        frame_index := s.frame_index + 1,
        padded_frames := s.padded_frames + 1,
        written := s.written ++ [lastOrBlank s],
        next_frame_time := s.next_frame_time + interval } := by
  rcases s with ⟨fi, recs, pad, drop, nxt, last, blank, wr⟩
  rcases last with _ | b <;> rcases blank with _ | c <;>
    simp [webcamTick, lastOrBlank]

/-- Holding the gate closed for a whole run of `K` webcam ticks appends
exactly `K` duplicate records with contiguous indices and cadence-spaced
target times, pads `K` times, writes the last known bytes `K` times, and
never touches the reader input. -/
lemma webcamRun_gate_closed (interval : Int) :
    ∀ (rs : List (Option ConsumedFrame)) (s : WebcamState),
      webcamRun interval (rs.map (fun r => { gate := false, reader := r })) s =
        { s with
          frame_records := s.frame_records ++
            (List.range rs.length).map (fun i =>
              { frame_index := s.frame_index + i,
                t_ns := s.next_frame_time + i * interval,
                t_capture_ns := none, is_duplicate := true }),
          frame_index := s.frame_index + rs.length,
          padded_frames := s.padded_frames + rs.length,
          next_frame_time := s.next_frame_time + rs.length * interval,
          written := s.written ++ List.replicate rs.length (lastOrBlank s) } := by
  intro rs
  induction rs with
  | nil =>
    intro s
    simp [webcamRun_nil]
  | cons r rs ih =>
    intro s
    rw [List.map_cons, webcamRun_cons, webcamTick_gate_closed, ih]
    have hblank : lastOrBlank
        { s with
          frame_records := s.frame_records ++
            [{ frame_index := s.frame_index, t_ns := s.next_frame_time,
               t_capture_ns := none, is_duplicate := true }],
          frame_index := s.frame_index + 1,
          padded_frames := s.padded_frames + 1,
          written := s.written ++ [lastOrBlank s],
          next_frame_time := s.next_frame_time + interval } = lastOrBlank s := rfl
    rw [hblank]
    rcases s with ⟨fi, recs, pad, drop, nxt, last, blank, wr⟩
    simp only [List.length_cons, WebcamState.mk.injEq, and_true, true_and]
    refine ⟨by omega, ?_, by omega, by push_cast; ring, ?_⟩
    · rw [List.range_succ_eq_map, List.map_cons, List.map_map]
      have hfun : ((fun i => ({ frame_index := fi + i,
                                t_ns := nxt + (i : ℤ) * interval,
                                t_capture_ns := none,
                                is_duplicate := true } : FrameRecord)) ∘ Nat.succ) =
          (fun i => ({ frame_index := fi + 1 + i,
                       t_ns := nxt + interval + (i : ℤ) * interval,
                       t_capture_ns := none,
                       is_duplicate := true } : FrameRecord)) := by
        funext i
        simp only [Function.comp_apply, FrameRecord.mk.injEq, and_true]
        exact ⟨by omega, by push_cast; ring⟩
      rw [hfun]
      simp [List.append_assoc]
    · rw [List.replicate_succ, List.append_assoc, List.singleton_append]

/-- C1 (amended): in the webcam loop, holding `allowed()` false for K
consecutive ticks appends exactly K duplicate FrameRecords with contiguous
frame indices, cadence-spaced target times and `t_capture_ns = none`, pads K
times, writes the last known real sample (or the blank placeholder) each
time, and never consults the reader (the result does not depend on the
reader inputs `rs`); the mss screen loop, however, skips a disallowed tick
entirely: it only advances `next_frame_time` and appends no FrameRecord. -/
theorem gate_closed_tick_semantics :
    (∀ (interval : Int) (rs : List (Option ConsumedFrame)) (s : WebcamState),
      webcamRun interval (rs.map (fun r => { gate := false, reader := r })) s =
        { s with
          frame_records := s.frame_records ++
            (List.range rs.length).map (fun i =>
              { frame_index := s.frame_index + i,
                t_ns := s.next_frame_time + i * interval,
                t_capture_ns := none, is_duplicate := true }),
          frame_index := s.frame_index + rs.length,
          padded_frames := s.padded_frames + rs.length,
          next_frame_time := s.next_frame_time + rs.length * interval,
          written := s.written ++ List.replicate rs.length (lastOrBlank s) }) ∧
    (∀ (interval : Int) (g : ScreenGrab) (t : Int) (s : ScreenState),
      screenTick interval { gate := false, grab := g, now := t } s =
        { s with next_frame_time := s.next_frame_time + interval }) :=
  ⟨fun interval rs s => webcamRun_gate_closed interval rs s,
   fun _ _ _ _ => rfl⟩

/-- C1 counterexample: one screen-loop tick with the gate closed, starting
from the initial recorder state, appends no FrameRecord at all and leaves
`frame_index` at 0 — the claim demands one duplicate record with an advanced
frame index for every stream capture loop. -/
theorem screen_gate_closed_no_record :
    (screenRun 33333333
      [{ gate := false, grab := ScreenGrab.processed (some [1]), now := 0 }]
      (initScreenState 0)).frame_records = [] ∧
    (screenRun 33333333
      [{ gate := false, grab := ScreenGrab.processed (some [1]), now := 0 }]
      (initScreenState 0)).frame_index = 0 :=
  ⟨rfl, rfl⟩

/-- Every completed webcam tick appends exactly one record, at the current
frame index, and pads exactly when that record is a duplicate. -/
lemma webcamTick_appends (interval : Int) (inp : WebcamTickIn) (s : WebcamState) :
    ∃ rec : FrameRecord,
      (webcamTick interval inp s).frame_records = s.frame_records ++ [rec] ∧
      rec.frame_index = s.frame_index ∧
      (webcamTick interval inp s).frame_index = s.frame_index + 1 ∧
      (webcamTick interval inp s).padded_frames =
        s.padded_frames + (if rec.is_duplicate then 1 else 0) := by
  rcases inp with ⟨g, r⟩
  cases g with
  | false =>
    exact ⟨{ frame_index := s.frame_index, t_ns := s.next_frame_time,
             t_capture_ns := none, is_duplicate := true },
           by simp [webcamTick], rfl, by simp [webcamTick], by simp [webcamTick]⟩
  | true =>
    cases r with
    | none =>
      exact ⟨{ frame_index := s.frame_index, t_ns := s.next_frame_time,
               t_capture_ns := none, is_duplicate := true },
             by simp [webcamTick], rfl, by simp [webcamTick], by simp [webcamTick]⟩
    | some cf =>
      by_cases hst : cf.stale ∧ s.last_frame_bytes ≠ none
      · exact ⟨{ frame_index := s.frame_index, t_ns := s.next_frame_time,
                 t_capture_ns := none, is_duplicate := true },
               by simp [webcamTick, hst], rfl, by simp [webcamTick, hst],
               by simp [webcamTick, hst]⟩
      · refine ⟨{ frame_index := s.frame_index, t_ns := s.next_frame_time,
                  t_capture_ns :=
                    if intTruthy (some (pyOrInt cf.capture_ns s.next_frame_time)) then
                      some (pyOrInt cf.capture_ns s.next_frame_time)
                    else none,
                  is_duplicate := false },
               by simp [webcamTick, hst], rfl, by simp [webcamTick, hst],
               by simp [webcamTick, hst]⟩

/-- Invariants of the webcam loop: the record list grows by one per tick, the
frame index tracks the record count, the pad counter counts the duplicate
records, and the frame indices are exactly `0, 1, 2, …`. -/
lemma webcamRun_inv (interval : Int) :
    ∀ (inps : List WebcamTickIn) (s : WebcamState),
      s.frame_index = s.frame_records.length →
      s.padded_frames = s.frame_records.countP (fun r => r.is_duplicate) →
      s.frame_records.map (fun r => r.frame_index) =
        List.range s.frame_records.length →
      (webcamRun interval inps s).frame_records.length =
          s.frame_records.length + inps.length ∧
        (webcamRun interval inps s).frame_index =
          (webcamRun interval inps s).frame_records.length ∧
        (webcamRun interval inps s).padded_frames =
          (webcamRun interval inps s).frame_records.countP
            (fun r => r.is_duplicate) ∧
        (webcamRun interval inps s).frame_records.map (fun r => r.frame_index) =
          List.range (webcamRun interval inps s).frame_records.length := by
  intro inps
  induction inps with
  | nil =>
    intro s h1 h2 h3
    exact ⟨by simp [webcamRun_nil], by simp [webcamRun_nil, h1],
           by simp [webcamRun_nil, h2], by simp [webcamRun_nil, h3]⟩
  | cons i inps ih =>
    intro s h1 h2 h3
    obtain ⟨rec, hrec, hri, hfi, hpad⟩ := webcamTick_appends interval i s
    have h1' : (webcamTick interval i s).frame_index =
        (webcamTick interval i s).frame_records.length := by
      rw [hfi, hrec, h1]
      simp
    have h2' : (webcamTick interval i s).padded_frames =
        (webcamTick interval i s).frame_records.countP
          (fun r => r.is_duplicate) := by
      rw [hpad, hrec, h2, List.countP_append]
      simp [List.countP_cons]
    have h3' : (webcamTick interval i s).frame_records.map
        (fun r => r.frame_index) =
        List.range (webcamTick interval i s).frame_records.length := by
      rw [hrec, List.map_append, h3, List.length_append]
      simp only [List.map_cons, List.map_nil, List.length_cons, List.length_nil]
      rw [hri, h1, ← List.range_succ]
    have := ih (webcamTick interval i s) h1' h2' h3'
    rw [webcamRun_cons]
    refine ⟨?_, this.2.1, this.2.2.1, this.2.2.2⟩
    rw [this.1, hrec]
    simp only [List.length_append, List.length_cons, List.length_nil]
    omega

/-- Tick accounting of the screen loop: a real frame grows the record list,
every other completed tick either increments `dropped_frames` (open gate,
failed grab or falsy frame) or changes neither (closed gate). -/
lemma screenRun_counts (interval : Int) :
    ∀ (inps : List ScreenTickIn) (s : ScreenState),
      (screenRun interval inps s).frame_records.length +
          (screenRun interval inps s).dropped_frames +
          inps.countP (fun i => !i.gate) =
        s.frame_records.length + s.dropped_frames + inps.length := by
  intro inps
  induction inps with
  | nil => intro s; simp [screenRun_nil]
  | cons i inps ih =>
    intro s
    rw [screenRun_cons, List.countP_cons, List.length_cons]
    have hih := ih (screenTick interval i s)
    rcases i with ⟨g, grab, now⟩
    cases g with
    | false =>
      have hite : (if (!({ gate := false, grab := grab, now := now } :
          ScreenTickIn).gate) = true then 1 else 0) = 1 := rfl
      have hlen : (screenTick interval
          { gate := false, grab := grab, now := now } s).frame_records.length
          = s.frame_records.length := rfl
      have hdrop : (screenTick interval
          { gate := false, grab := grab, now := now } s).dropped_frames
          = s.dropped_frames := rfl
      rw [hite]
      omega
    | true =>
      have hite : (if (!({ gate := true, grab := grab, now := now } :
          ScreenTickIn).gate) = true then 1 else 0) = 0 := rfl
      rw [hite]
      cases grab with
      | error =>
        have hlen : (screenTick interval
            { gate := true, grab := ScreenGrab.error, now := now } s).frame_records.length
            = s.frame_records.length := rfl
        have hdrop : (screenTick interval
            { gate := true, grab := ScreenGrab.error, now := now } s).dropped_frames
            = s.dropped_frames + 1 := rfl
        omega
      | processed fb =>
        by_cases hb : bytesTruthy fb
        · have hts : screenTick interval
              { gate := true, grab := ScreenGrab.processed fb, now := now } s =
              { s with
                frame_records := s.frame_records ++
                  [{ frame_index := s.frame_index, t_ns := now,
                     t_capture_ns := some now, is_duplicate := false }],
                frame_index := s.frame_index + 1,
                written := s.written ++ [fb.getD []],
                last_frame_bytes := fb,
                next_frame_time := s.next_frame_time + interval } := by
            simp [screenTick, hb]
          have hlen : (screenTick interval
              { gate := true, grab := ScreenGrab.processed fb, now := now }
              s).frame_records.length = s.frame_records.length + 1 := by
            rw [hts]; simp
          have hdrop : (screenTick interval
              { gate := true, grab := ScreenGrab.processed fb, now := now }
              s).dropped_frames = s.dropped_frames := by rw [hts]
          omega
        · have hts : screenTick interval
              { gate := true, grab := ScreenGrab.processed fb, now := now } s =
              { s with dropped_frames := s.dropped_frames + 1,
                       next_frame_time := s.next_frame_time + interval } := by
            simp [screenTick, hb]
          have hlen : (screenTick interval
              { gate := true, grab := ScreenGrab.processed fb, now := now }
              s).frame_records.length = s.frame_records.length := by rw [hts]
          have hdrop : (screenTick interval
              { gate := true, grab := ScreenGrab.processed fb, now := now }
              s).dropped_frames = s.dropped_frames + 1 := by rw [hts]
          omega

/-- Index contiguity of the screen loop: the appended records carry frame
indices `0, 1, 2, …` in order, with the counter tracking the record count. -/
lemma screenRun_indices (interval : Int) :
    ∀ (inps : List ScreenTickIn) (s : ScreenState),
      s.frame_index = s.frame_records.length →
      s.frame_records.map (fun r => r.frame_index) =
        List.range s.frame_records.length →
      (screenRun interval inps s).frame_index =
          (screenRun interval inps s).frame_records.length ∧
        (screenRun interval inps s).frame_records.map (fun r => r.frame_index) =
          List.range (screenRun interval inps s).frame_records.length := by
  intro inps
  induction inps with
  | nil => intro s h1 h2; exact ⟨by simp [screenRun_nil, h1], by simp [screenRun_nil, h2]⟩
  | cons i inps ih =>
    intro s h1 h2
    rw [screenRun_cons]
    rcases i with ⟨g, grab, now⟩
    cases g with
    | false =>
      exact ih _ h1 h2
    | true =>
      cases grab with
      | error => exact ih _ h1 h2
      | processed fb =>
        by_cases hb : bytesTruthy fb
        · have hts : screenTick interval
              { gate := true, grab := ScreenGrab.processed fb, now := now } s =
              { s with
                frame_records := s.frame_records ++
                  [{ frame_index := s.frame_index, t_ns := now,
                     t_capture_ns := some now, is_duplicate := false }],
                frame_index := s.frame_index + 1,
                written := s.written ++ [fb.getD []],
                last_frame_bytes := fb,
                next_frame_time := s.next_frame_time + interval } := by
            simp [screenTick, hb]
          rw [hts]
          refine ih _ ?_ ?_
          · simp [h1]
          · simp only [List.map_append, List.map_cons, List.map_nil,
              List.length_append, List.length_cons, List.length_nil, h2, h1]
            rw [← List.range_succ]
        · have hts : screenTick interval
              { gate := true, grab := ScreenGrab.processed fb, now := now } s =
              { s with dropped_frames := s.dropped_frames + 1,
                       next_frame_time := s.next_frame_time + interval } := by
            simp [screenTick, hb]
          rw [hts]
          exact ih _ h1 h2

/-- C4 (amended): in the webcam loop every completed tick appends exactly one
FrameRecord, the indices are exactly `0..N-1`, `padded_frames` counts the
duplicate records, and real records plus padded ticks account for all N
ticks; in the screen loop the records' indices are still contiguous
(`0..real-1`), but a tick only appends a record when the gate is open and the
grab succeeds, so it is real records plus `dropped_frames` plus the
closed-gate ticks that account for all N ticks — not
`real + duplicate + dropped` alone, and the indices reach `N-1` only when
nothing was skipped or dropped. -/
theorem tick_accounting :
    (∀ (interval t0 : Int) (last blank : Option Bytes)
        (inps : List WebcamTickIn),
      (webcamRun interval inps (initWebcamState t0 last blank)).frame_records.length
          = inps.length ∧
        (webcamRun interval inps
            (initWebcamState t0 last blank)).frame_records.map
            (fun r => r.frame_index) = List.range inps.length ∧
        (webcamRun interval inps (initWebcamState t0 last blank)).padded_frames
          = (webcamRun interval inps
              (initWebcamState t0 last blank)).frame_records.countP
              (fun r => r.is_duplicate) ∧
        (webcamRun interval inps
            (initWebcamState t0 last blank)).frame_records.countP
            (fun r => !r.is_duplicate) +
          (webcamRun interval inps (initWebcamState t0 last blank)).padded_frames
          = inps.length) ∧
    (∀ (interval t0 : Int) (inps : List ScreenTickIn),
      (screenRun interval inps (initScreenState t0)).frame_records.map
          (fun r => r.frame_index) =
        List.range (screenRun interval inps
          (initScreenState t0)).frame_records.length ∧
      (screenRun interval inps (initScreenState t0)).frame_records.length +
          (screenRun interval inps (initScreenState t0)).dropped_frames +
          inps.countP (fun i => !i.gate) = inps.length) := by
  constructor
  · intro interval t0 last blank inps
    obtain ⟨hlen, hidx, hpad, hrange⟩ :=
      webcamRun_inv interval inps (initWebcamState t0 last blank) rfl rfl rfl
    have h0 : (initWebcamState t0 last blank).frame_records.length = 0 := rfl
    rw [h0, Nat.zero_add] at hlen
    refine ⟨hlen, by rw [hrange, hlen], hpad, ?_⟩
    have hsplit := List.length_eq_countP_add_countP
      (fun r : FrameRecord => !r.is_duplicate)
      (webcamRun interval inps (initWebcamState t0 last blank)).frame_records
    have hcongr : (webcamRun interval inps
        (initWebcamState t0 last blank)).frame_records.countP
        (fun r => decide ¬(!r.is_duplicate) = true) =
        (webcamRun interval inps
          (initWebcamState t0 last blank)).frame_records.countP
          (fun r => r.is_duplicate) := by
      congr 1
      funext r
      cases hr : r.is_duplicate <;> simp [hr]
    rw [hcongr] at hsplit
    omega
  · intro interval t0 inps
    refine ⟨(screenRun_indices interval inps (initScreenState t0) rfl rfl).2, ?_⟩
    have := screenRun_counts interval inps (initScreenState t0)
    simpa [initScreenState] using this

/-- C4 counterexample: a two-tick screen-loop run (first tick gate closed,
second tick a successful real capture) ends with one real record, no
duplicates and no drops — `real + duplicate + dropped = 1 ≠ 2 = N` — and the
frame-index list is `[0]`, not `0..N-1 = [0, 1]`. -/
theorem screen_two_ticks_accounting_gap :
    (screenRun 33333333
      [{ gate := false, grab := ScreenGrab.processed (some [1]), now := 0 },
       { gate := true, grab := ScreenGrab.processed (some [1]), now := 5 }]
      (initScreenState 0)).frame_records.countP (fun r => !r.is_duplicate) +
      (screenRun 33333333
        [{ gate := false, grab := ScreenGrab.processed (some [1]), now := 0 },
         { gate := true, grab := ScreenGrab.processed (some [1]), now := 5 }]
        (initScreenState 0)).frame_records.countP (fun r => r.is_duplicate) +
      (screenRun 33333333
        [{ gate := false, grab := ScreenGrab.processed (some [1]), now := 0 },
         { gate := true, grab := ScreenGrab.processed (some [1]), now := 5 }]
        (initScreenState 0)).dropped_frames = 1 ∧
    (screenRun 33333333
      [{ gate := false, grab := ScreenGrab.processed (some [1]), now := 0 },
       { gate := true, grab := ScreenGrab.processed (some [1]), now := 5 }]
      (initScreenState 0)).frame_records.map (fun r => r.frame_index) = [0] := by
  constructor
  · decide
  · decide

lemma bisect_right_le_length : ∀ (l : List Int) (x : Int),
    bisect_right l x ≤ l.length := by
  intro l x
  induction l with
  | nil => simp [bisect_right]
  | cons a l ih =>
    rw [bisect_right]
    split
    · omega
    · simpa using ih

lemma bisect_right_cons_lt {a x : Int} (l : List Int) (h : x < a) :
    bisect_right (a :: l) x = 0 := by
  rw [bisect_right, if_pos h]

lemma bisect_right_cons_le {a x : Int} (l : List Int) (h : ¬x < a) :
    bisect_right (a :: l) x = bisect_right l x + 1 := by
  rw [bisect_right, if_neg h]

/-- When the insertion point is positive and in range, the correlator's clamp
logic reduces to plain indexing at `insertion point - 1`. -/
lemma frameRefFor_pos (times : List Int) (indices : List Nat) (t : Int)
    (h1 : 1 ≤ bisect_right times t)
    (h2 : bisect_right times t ≤ indices.length) :
    frameRefFor times indices t = indices.getD (bisect_right times t - 1) 0 := by
  simp only [frameRefFor]
  rw [if_neg (by omega), if_neg (by omega)]
  congr 1
  omega

/-- When every frame time is greater than the event time, the correlator
clamps to position 0. -/
lemma frameRefFor_zero (times : List Int) (indices : List Nat) (t : Int)
    (h : bisect_right times t = 0) :
    frameRefFor times indices t = indices.getD 0 0 := by
  simp only [frameRefFor, h]
  norm_num

/-- On a time-sorted, nonempty frame list the correlator's loop body computes
exactly the spec's "frame index of the latest frame whose time is ≤ t,
clamped to the first frame". -/
lemma frameRefFor_eq_spec :
    ∀ (frames : List FrameRecord) (t : Int), frames ≠ [] →
      List.Chain' (· ≤ ·) (frames.map (fun fr => fr.t_ns)) →
      frameRefFor (frames.map (fun fr => fr.t_ns))
          (frames.map (fun fr => fr.frame_index)) t =
        specLatestFrameRef frames t := by
  intro frames
  induction frames with
  | nil => intro t h; exact absurd rfl h
  | cons f tl ih =>
    intro t _ hs
    have hp : List.Pairwise (· ≤ ·) ((f :: tl).map (fun fr => fr.t_ns)) :=
      List.chain'_iff_pairwise.mp hs
    by_cases h1 : t < f.t_ns
    · -- every frame is later than the event: clamp to the head frame
      have hb : bisect_right ((f :: tl).map (fun fr => fr.t_ns)) t = 0 := by
        rw [List.map_cons]
        exact bisect_right_cons_lt _ h1
      have hfil : (f :: tl).filter (fun fr => decide (fr.t_ns ≤ t)) = [] := by
        rw [List.filter_eq_nil_iff]
        intro fr hfr
        simp only [decide_eq_true_eq]
        rcases List.mem_cons.mp hfr with rfl | hfr'
        · omega
        · have : f.t_ns ≤ fr.t_ns :=
            (List.pairwise_cons.mp hp).1 fr.t_ns
              (List.mem_map_of_mem (fun fr => fr.t_ns) hfr')
          omega
      rw [frameRefFor_zero _ _ _ hb]
      unfold specLatestFrameRef
      rw [hfil]
      simp
    · have hft : f.t_ns ≤ t := by omega
      have hftd : decide (f.t_ns ≤ t) = true := by simpa using hft
      cases tl with
      | nil =>
        have hb : bisect_right ([f].map (fun fr => fr.t_ns)) t = 1 := by
          simp [bisect_right, h1]
        rw [frameRefFor_pos _ _ _ (by omega) (by rw [hb]; simp), hb]
        unfold specLatestFrameRef
        simp [List.filter_cons, hftd]
      | cons g rest =>
        have hptl : List.Pairwise (· ≤ ·) ((g :: rest).map (fun fr => fr.t_ns)) :=
          (List.pairwise_cons.mp hp).2
        by_cases h2 : t < g.t_ns
        · -- only the head frame is ≤ t
          have hb : bisect_right ((f :: g :: rest).map (fun fr => fr.t_ns)) t = 1 := by
            simp only [List.map_cons]
            rw [bisect_right_cons_le _ h1, bisect_right_cons_lt _ h2]
          have hfil : (g :: rest).filter (fun fr => decide (fr.t_ns ≤ t)) = [] := by
            rw [List.filter_eq_nil_iff]
            intro fr hfr
            simp only [decide_eq_true_eq]
            rcases List.mem_cons.mp hfr with rfl | hfr'
            · omega
            · have : g.t_ns ≤ fr.t_ns :=
                (List.pairwise_cons.mp hptl).1 fr.t_ns
                  (List.mem_map_of_mem (fun fr => fr.t_ns) hfr')
              omega
          rw [frameRefFor_pos _ _ _ (by omega) (by rw [hb]; simp), hb]
          unfold specLatestFrameRef
          simp [List.filter_cons, hftd, hfil]
        · -- at least two frames are ≤ t: recurse into the tail
          have hgt : g.t_ns ≤ t := by omega
          have hbg : 1 ≤ bisect_right ((g :: rest).map (fun fr => fr.t_ns)) t := by
            simp only [List.map_cons]
            rw [bisect_right_cons_le _ h2]
            omega
          have hble : bisect_right ((g :: rest).map (fun fr => fr.t_ns)) t ≤
              (g :: rest).length := by
            have := bisect_right_le_length ((g :: rest).map (fun fr => fr.t_ns)) t
            simpa using this
          have hbfull : bisect_right ((f :: g :: rest).map (fun fr => fr.t_ns)) t =
              bisect_right ((g :: rest).map (fun fr => fr.t_ns)) t + 1 := by
            simp only [List.map_cons]
            rw [bisect_right_cons_le _ h1]
          have hlhs : frameRefFor ((f :: g :: rest).map (fun fr => fr.t_ns))
              ((f :: g :: rest).map (fun fr => fr.frame_index)) t =
              frameRefFor ((g :: rest).map (fun fr => fr.t_ns))
                ((g :: rest).map (fun fr => fr.frame_index)) t := by
            rw [frameRefFor_pos _ _ _ (by omega)
              (by rw [hbfull]; have := hble; simp at this ⊢; omega), hbfull]
            rw [frameRefFor_pos _ _ _ hbg (by simpa using hble)]
            obtain ⟨m, hm⟩ : ∃ m, bisect_right ((g :: rest).map (fun fr => fr.t_ns)) t
                = m + 1 := ⟨_, (Nat.succ_pred_eq_of_pos hbg).symm⟩
            rw [hm]
            simp [List.getD_cons_succ]
          have hspec : specLatestFrameRef (f :: g :: rest) t =
              specLatestFrameRef (g :: rest) t := by
            unfold specLatestFrameRef
            have hgmem : (g :: rest).filter (fun fr => decide (fr.t_ns ≤ t)) ≠ [] := by
              intro hnil
              rw [List.filter_eq_nil_iff] at hnil
              exact hnil g (List.mem_cons_self g rest) (by simpa using hgt)
            rcases hfil : (g :: rest).filter (fun fr => decide (fr.t_ns ≤ t)) with _ | ⟨c, l'⟩
            · exact absurd hfil hgmem
            · simp only [List.filter_cons, hftd, hfil, if_true, List.getLast?_cons_cons]
              rcases hgl : (c :: l').getLast? with _ | x
              · exact absurd (List.getLast?_eq_none_iff.mp hgl) (by simp)
              · rfl
          rw [hlhs, hspec]
          exact ih t (by simp) hptl.chain'

/-- C2: on a nonempty, time-sorted frame stream the correlator assigns every
event the `frame_index` of the latest frame whose time is ≤ the event's
`t_ns`, clamping events earlier than every frame to the first frame; in
particular for frame times `[0, 100, 200]` ns the events at `t = 150`,
`t = -5` and `t = 10000` get `frame_ref` `1`, `0` and `2`. -/
theorem assign_frame_refs_latest_le :
    (∀ (events : List InputEvent) (frames : List FrameRecord),
      frames ≠ [] →
      List.Chain' (· ≤ ·) (frames.map (fun fr => fr.t_ns)) →
      assign_frame_refs events frames =
        events.map (fun ev =>
          { ev with frame_ref := some (specLatestFrameRef frames ev.t_ns) })) ∧
    (assign_frame_refs evs310 frames310).map (fun ev => ev.frame_ref) =
      [some 1, some 0, some 2] := by
  constructor
  · intro events frames hne hs
    rcases events with _ | ⟨e, evs⟩
    · simp [assign_frame_refs]
    · rw [assign_frame_refs, if_neg (by simp [hne])]
      apply List.map_congr_left
      intro ev _
      rw [frameRefFor_eq_spec frames ev.t_ns hne hs]
  · decide

/-- C2 witness: the general correlator theorem applied to the spec's concrete
frame stream `[0, 100, 200]` and its three example events. -/
theorem assign_frame_refs_latest_le_witness :
    assign_frame_refs evs310 frames310 =
      evs310.map (fun ev =>
        { ev with frame_ref := some (specLatestFrameRef frames310 ev.t_ns) }) :=
  assign_frame_refs_latest_le.1 evs310 frames310 (by decide)
    (by norm_num [frames310, mkFr, List.chain'_cons])

lemma cadence_not_mem_gapWarns (d : ℚ) (sf : List FrameRecord) :
    VWarn.cadence_deviation d ∉ gapWarns sf := by
  unfold gapWarns
  split_ifs <;> simp

lemma cadence_not_mem_skewWarns (d : ℚ) (wf : Option (List FrameRecord))
    (sf : List FrameRecord) :
    VWarn.cadence_deviation d ∉ skewWarns wf sf := by
  unfold skewWarns
  rcases wf with _ | ⟨_ | ⟨w, wl⟩⟩
  · simp
  · simp
  · rcases sf with _ | ⟨s, sl⟩
    · simp
    · dsimp only
      split_ifs <;> simp

lemma cadence_mem_cadenceWarns (sf : List FrameRecord) (fps : Nat) :
    (∃ d, VWarn.cadence_deviation d ∈ cadenceWarns sf fps) ↔
      (1 < sf.length ∧
        cadenceDeviation (sf.map (fun fr => fr.t_ns)) fps > 1 / 10) := by
  unfold cadenceWarns
  split_ifs <;> simp [*]

/-- C6 (amended): the validator emits a cadence-deviation warning exactly when
there are at least two screen frames and the mean inter-frame interval of
their `t_ns` sequence deviates from the target interval `int(1e9 / fps)` ns
by more than 10%; in particular a stream with `t_ns` values
`[0, 33333333, 66666667, 100000000]` ns at target fps 30 yields no cadence
warning. -/
theorem cadence_warning_characterization :
    (∀ (events : List InputEvent) (screen_frames : List FrameRecord)
        (webcam_frames : Option (List FrameRecord)) (fps : Nat),
      (∃ d, VWarn.cadence_deviation d ∈
          (validate_capture_data events screen_frames webcam_frames fps).warnings) ↔
        (1 < screen_frames.length ∧
          cadenceDeviation (screen_frames.map (fun fr => fr.t_ns)) fps > 1 / 10)) ∧
    (validate_capture_data [] framesNs33 none 30).warnings.any isCadenceWarn
      = false := by
  constructor
  · intro ev sf wf fps
    have hw : (validate_capture_data ev sf wf fps).warnings =
        cadenceWarns sf fps ++ gapWarns sf ++ skewWarns wf sf := rfl
    rw [hw]
    constructor
    · rintro ⟨d, hd⟩
      rcases List.mem_append.mp hd with hd' | hd'
      · rcases List.mem_append.mp hd' with hd'' | hd''
        · exact (cadence_mem_cadenceWarns sf fps).mp ⟨d, hd''⟩
        · exact absurd hd'' (cadence_not_mem_gapWarns d sf)
      · exact absurd hd' (cadence_not_mem_skewWarns d wf sf)
    · intro h
      obtain ⟨d, hd⟩ := (cadence_mem_cadenceWarns sf fps).mpr h
      exact ⟨d, List.mem_append.mpr (Or.inl (List.mem_append.mpr (Or.inl hd)))⟩
  · have hcd : cadenceDeviation (framesNs33.map (fun fr => fr.t_ns)) 30
        = 1 / 99999999 := by
      unfold cadenceDeviation expectedFrameIntervalNs
      simp only [framesNs33, mkFr, List.map_cons, List.map_nil, successiveDiffs,
        List.foldl_cons, List.foldl_nil, List.length_cons, List.length_nil]
      have hfl : ⌊(10 : ℚ) ^ 9 / ((30 : ℕ) : ℚ)⌋ = 33333333 := by norm_num
      rw [pyInt, if_pos (by norm_num), hfl]
      rw [abs_of_nonneg (by norm_num)]
      norm_num
    have hcw : cadenceWarns framesNs33 30 = [] := by
      unfold cadenceWarns
      rw [if_pos (by norm_num [framesNs33]), if_neg (by rw [hcd]; norm_num)]
    have hgw : gapWarns framesNs33 = [] := by decide
    have hw : (validate_capture_data [] framesNs33 none 30).warnings =
        cadenceWarns framesNs33 30 ++ gapWarns framesNs33 ++
          skewWarns none framesNs33 := rfl
    rw [hw, hcw, hgw]
    rfl

/-- C6 counterexample: the spec's cadence example taken literally — screen
frames with `t_ns` `[0, 33, 67, 100]` (nanoseconds) at target fps 30 — has a
mean interval of 100/3 ns against a target interval of 33333333 ns, a
deviation of about 100%, so `validate_capture_data` does emit a cadence
warning for it, contrary to the claim. -/
theorem cadence_literal_example_warns :
    (validate_capture_data [] framesLit33 none 30).warnings.any isCadenceWarn
      = true := by
  have hcd : cadenceDeviation (framesLit33.map (fun fr => fr.t_ns)) 30
      = 99999899 / 99999999 := by
    unfold cadenceDeviation expectedFrameIntervalNs
    simp only [framesLit33, mkFr, List.map_cons, List.map_nil, successiveDiffs,
      List.foldl_cons, List.foldl_nil, List.length_cons, List.length_nil]
    have hfl : ⌊(10 : ℚ) ^ 9 / ((30 : ℕ) : ℚ)⌋ = 33333333 := by norm_num
    rw [pyInt, if_pos (by norm_num), hfl]
    rw [abs_of_nonpos (by norm_num), neg_sub]
    norm_num
  have hcw : cadenceWarns framesLit33 30 =
      [VWarn.cadence_deviation (99999899 / 99999999)] := by
    unfold cadenceWarns
    rw [if_pos (by norm_num [framesLit33])]
    rw [if_pos (by rw [hcd]; norm_num)]
    rw [hcd]
  have hw : (validate_capture_data [] framesLit33 none 30).warnings =
      cadenceWarns framesLit33 30 ++ gapWarns framesLit33 ++
        skewWarns none framesLit33 := rfl
  rw [hw, hcw]
  simp [isCadenceWarn]

/-- Soundness of the segmentation loop: every trajectory it emits (beyond the
accumulator it started from) covers a window `[cur, min (cur + duration) end]`
whose start lies on the arithmetic progression of window starts, and contains
at least one event and one frame. -/
lemma segLoop_sound :
    ∀ (fuel : Nat) (events : List InputEvent) (screen_frames : List FrameRecord)
      (duration_ns overlap_ns start_time_ns end_time_ns : Int) (overlap_s : ℚ)
      (cur : Int) (acc out : List Trajectory),
      segLoop events screen_frames duration_ns overlap_ns start_time_ns
        end_time_ns overlap_s fuel cur acc = some out →
      (∃ m : ℕ, cur = start_time_ns + m * (duration_ns - overlap_ns)) →
      (∀ tr ∈ acc,
        0 < tr.event_count ∧ 0 < tr.frame_count ∧
        tr.end_time_ns = min (tr.start_time_ns + duration_ns) end_time_ns ∧
        (∃ k : ℕ, tr.start_time_ns =
          start_time_ns + k * (duration_ns - overlap_ns)) ∧
        tr.start_time_ns < end_time_ns) →
      ∀ tr ∈ out,
        0 < tr.event_count ∧ 0 < tr.frame_count ∧
        tr.end_time_ns = min (tr.start_time_ns + duration_ns) end_time_ns ∧
        (∃ k : ℕ, tr.start_time_ns =
          start_time_ns + k * (duration_ns - overlap_ns)) ∧
        tr.start_time_ns < end_time_ns := by
  intro fuel
  induction fuel with
  | zero =>
    intro ev fr d o st en ovS cur acc out h _ _
    exact absurd h (by rw [segLoop]; simp)
  | succ fuel ih =>
    intro ev fr d o st en ovS cur acc out h hcur hacc
    rw [segLoop] at h
    by_cases hlt : cur < en
    · rw [if_pos hlt] at h
      dsimp only at h
      refine ih ev fr d o st en ovS _ _ out h ?_ ?_
      · obtain ⟨m, hm⟩ := hcur
        exact ⟨m + 1, by rw [hm]; push_cast; ring⟩
      · by_cases hc :
          ev.filter (fun e => decide (cur ≤ e.t_ns ∧ e.t_ns ≤ min (cur + d) en)) ≠ [] ∧
          fr.filter (fun f => decide (cur ≤ f.t_ns ∧ f.t_ns ≤ min (cur + d) en)) ≠ []
        · rw [if_pos hc] at h ⊢
          intro tr htr
          rcases List.mem_append.mp htr with htr' | htr'
          · exact hacc tr htr'
          · have htr'' : tr = mkTrajectory ev fr ovS st cur (min (cur + d) en)
                acc.length
                (ev.filter (fun e => decide (cur ≤ e.t_ns ∧ e.t_ns ≤ min (cur + d) en)))
                (fr.filter (fun f => decide (cur ≤ f.t_ns ∧ f.t_ns ≤ min (cur + d) en))) := by
              simpa using htr'
            subst htr''
            refine ⟨List.length_pos.mpr hc.1, List.length_pos.mpr hc.2, rfl, hcur, hlt⟩
        · rw [if_neg hc] at h ⊢
          exact hacc
    · rw [if_neg hlt] at h
      obtain rfl : acc = out := Option.some.inj h
      exact hacc

/-- C7: the trajectory segmenter takes `start = min` and `end = max` of the
event timestamps, forms windows whose ends are clamped to `end` and whose
starts walk the progression `start + k * (duration_ns - overlap_ns)` (i.e.
`next_start = current_start + duration_s - overlap_s`), and emits a window
only if it contains at least one event and at least one frame; with
`duration_s = 60`, `overlap_s = 5` over a 130-second event span this produces
exactly 3 windows at offsets 0 s, 55 s and 110 s (the last clamped to the
span end), each holding at least one event and one frame. -/
theorem segment_trajectories_windows :
    (∀ (fuel : Nat) (events : List InputEvent) (screen_frames : List FrameRecord)
        (duration_ns overlap_ns start_time_ns end_time_ns : Int) (overlap_s : ℚ)
        (i : Nat)
        (h : i < ((segLoop events screen_frames duration_ns overlap_ns
            start_time_ns end_time_ns overlap_s fuel start_time_ns
            []).getD []).length),
      0 < (((segLoop events screen_frames duration_ns overlap_ns start_time_ns
          end_time_ns overlap_s fuel start_time_ns []).getD []).get
          ⟨i, h⟩).event_count ∧
      0 < (((segLoop events screen_frames duration_ns overlap_ns start_time_ns
          end_time_ns overlap_s fuel start_time_ns []).getD []).get
          ⟨i, h⟩).frame_count ∧
      (((segLoop events screen_frames duration_ns overlap_ns start_time_ns
          end_time_ns overlap_s fuel start_time_ns []).getD []).get
          ⟨i, h⟩).end_time_ns =
        min ((((segLoop events screen_frames duration_ns overlap_ns
          start_time_ns end_time_ns overlap_s fuel start_time_ns []).getD
          []).get ⟨i, h⟩).start_time_ns + duration_ns) end_time_ns ∧
      (∃ k : ℕ, (((segLoop events screen_frames duration_ns overlap_ns
          start_time_ns end_time_ns overlap_s fuel start_time_ns []).getD
          []).get ⟨i, h⟩).start_time_ns =
        start_time_ns + k * (duration_ns - overlap_ns))) ∧
    ((segment_trajectories 10 ev130 fr130 60 5).map
        (fun l => l.map trajSummary) =
      some [(0, 60000000000, 2, 2), (55000000000, 115000000000, 2, 2),
            (110000000000, 130000000000, 2, 2)]) := by
  constructor
  · intro fuel ev fr d o st en ovS i h
    have hall : ∀ tr ∈ (segLoop ev fr d o st en ovS fuel st []).getD [],
        0 < tr.event_count ∧ 0 < tr.frame_count ∧
        tr.end_time_ns = min (tr.start_time_ns + d) en ∧
        (∃ k : ℕ, tr.start_time_ns = st + k * (d - o)) ∧
        tr.start_time_ns < en := by
      rcases hres : segLoop ev fr d o st en ovS fuel st [] with _ | out
      · simp
      · intro tr htr
        refine segLoop_sound fuel ev fr d o st en ovS st [] out hres
          ⟨0, by push_cast; ring⟩ (by simp) tr ?_
        simpa using htr
    have := hall _ (List.get_mem _ i h)
    exact ⟨this.1, this.2.1, this.2.2.1, this.2.2.2.1⟩
  · have h60 : pyInt ((60 : ℚ) * 10 ^ 9) = 60000000000 := by
      rw [pyInt, if_pos (by norm_num)]
      norm_num
    have h5 : pyInt ((5 : ℚ) * 10 ^ 9) = 5000000000 := by
      rw [pyInt, if_pos (by norm_num)]
      norm_num
    have hmin : pyMinInt (ev130.map (fun ev => ev.t_ns)) = 0 := by decide
    have hmax : pyMaxInt (ev130.map (fun ev => ev.t_ns)) = 130000000000 := by
      decide
    have key : segment_trajectories 10 ev130 fr130 60 5 =
        segLoop ev130 fr130 60000000000 5000000000 0 130000000000 5 10 0 [] := by
      rw [segment_trajectories, if_neg (by decide)]
      dsimp only
      rw [hmin, hmax, h60, h5]
    rw [key]
    decide

/-- C7 witness: the window-soundness half of the segmenter theorem applied to
the concrete 130-second run (fuel 10, duration 60 s, overlap 5 s), at the
first emitted trajectory. -/
theorem segment_trajectories_windows_witness :
    0 < (((segLoop ev130 fr130 60000000000 5000000000 0 130000000000 5 10 0
        []).getD []).get ⟨0, by decide⟩).event_count ∧
    0 < (((segLoop ev130 fr130 60000000000 5000000000 0 130000000000 5 10 0
        []).getD []).get ⟨0, by decide⟩).frame_count ∧
    (∃ k : ℕ, (((segLoop ev130 fr130 60000000000 5000000000 0 130000000000 5
        10 0 []).getD []).get ⟨0, by decide⟩).start_time_ns =
      0 + k * (60000000000 - 5000000000)) := by
  have h := segment_trajectories_windows.1 10 ev130 fr130 60000000000
    5000000000 0 130000000000 5 0 (by decide)
  exact ⟨h.1, h.2.1, h.2.2.2⟩

/-- The degenerate segmentation step is a fixed point: when
`duration_ns = overlap_ns` and the cursor is strictly before the span end,
the loop never terminates, no matter how much fuel it is given. -/
lemma segLoop_stuck (events : List InputEvent) (screen_frames : List FrameRecord)
    (d st en : Int) (ovS : ℚ) (hlt : st < en) :
    ∀ (fuel : Nat) (acc : List Trajectory),
      segLoop events screen_frames d d st en ovS fuel st acc = none := by
  intro fuel
  induction fuel with
  | zero => intro acc; rw [segLoop]
  | succ fuel ih =>
    intro acc
    rw [segLoop, if_pos hlt]
    dsimp only
    rw [show st + (d - d) = st by ring]
    apply ih

/-- C8: the claim says the degenerate configuration `overlap_s ≥ duration_s`
is rejected or clamped before segmentation runs, so that segmentation always
terminates.  Nothing in the code rejects or clamps it, and running
`segment_trajectories` with `duration_s = overlap_s = 5` over a nonempty
10-second event span never finishes: the loop cursor never advances
(`current_start += duration_ns - overlap_ns` adds 0), so no fuel bound
suffices. -/
theorem segment_trajectories_degenerate_diverges :
    ∀ fuel : Nat, segment_trajectories fuel ev8 fr8 5 5 = none := by
  intro fuel
  have h5 : pyInt ((5 : ℚ) * 10 ^ 9) = 5000000000 := by
    rw [pyInt, if_pos (by norm_num)]
    norm_num
  have hmin : pyMinInt (ev8.map (fun ev => ev.t_ns)) = 0 := by decide
  have hmax : pyMaxInt (ev8.map (fun ev => ev.t_ns)) = 10000000000 := by decide
  rw [segment_trajectories, if_neg (by decide)]
  dsimp only
  rw [hmin, hmax, h5]
  exact segLoop_stuck ev8 fr8 5000000000 0 10000000000 5 (by norm_num) fuel []

lemma rowLe_t_le {a b : Nat × Row} (h : rowLe a b) : a.2.t_ns ≤ b.2.t_ns := by
  rcases h with h | ⟨he, _⟩
  · exact le_of_lt h
  · exact le_of_eq he

/-- Among position-decorated rows with distinct positions there is exactly one
arrangement sorted by `rowLe`: any two sorted permutations coincide.  This is
what makes the stable merge reproducible. -/
lemma sorted_perm_eq :
    ∀ (l₁ l₂ : List (Nat × Row)), (l₁.map Prod.fst).Nodup →
      l₁.Perm l₂ → List.Pairwise rowLe l₁ → List.Pairwise rowLe l₂ →
      l₁ = l₂ := by
  intro l₁
  induction l₁ with
  | nil =>
    intro l₂ _ hp _ _
    exact (List.Perm.eq_nil hp.symm).symm
  | cons a l₁ ih =>
    intro l₂ hnd hp hs₁ hs₂
    cases l₂ with
    | nil => exact absurd (List.Perm.eq_nil hp) (by simp)
    | cons b l₂ =>
      have hab : a = b := by
        by_contra hne
        have haIn : a ∈ b :: l₂ := hp.mem_iff.mp (List.mem_cons_self a l₁)
        have hbIn : b ∈ a :: l₁ := hp.symm.mem_iff.mp (List.mem_cons_self b l₂)
        have ha2 : a ∈ l₂ := by
          rcases List.mem_cons.mp haIn with h | h
          · exact absurd h hne
          · exact h
        have hb1 : b ∈ l₁ := by
          rcases List.mem_cons.mp hbIn with h | h
          · exact absurd h.symm hne
          · exact h
        have h₁ : rowLe a b := (List.pairwise_cons.mp hs₁).1 b hb1
        have h₂ : rowLe b a := (List.pairwise_cons.mp hs₂).1 a ha2
        have hfst : a.1 = b.1 := by
          rcases h₁ with h1' | ⟨he1, hi1⟩ <;> rcases h₂ with h2' | ⟨he2, hi2⟩ <;>
            omega
        have hmem : a.1 ∈ l₁.map Prod.fst := by
          rw [hfst]
          exact List.mem_map_of_mem Prod.fst hb1
        have hnd' : a.1 ∉ l₁.map Prod.fst :=
          (List.nodup_cons.mp (by simpa using hnd)).1
        exact hnd' hmem
      subst hab
      have := ih l₂ (List.nodup_cons.mp (by simpa using hnd)).2 hp.cons_inv
        (List.pairwise_cons.mp hs₁).2 (List.pairwise_cons.mp hs₂).2
      rw [this]

/-- C9: the ledger merge of `write_events` sorts the union of the input-event
rows and the per-stream frame rows ascending by `t_ns` as a stable sort: the
decorated sort is ordered by `rowLe` (strictly earlier time, or equal time
and original position order — never stream name), the output is a
permutation of the concatenated input rows and is non-decreasing in `t_ns`,
and any `rowLe`-sorted permutation of the decorated rows is *equal* to the
one the merge produces, so merging identical inputs twice yields the
identical ordering. -/
theorem write_events_stable_merge :
    ∀ (events : List InputEvent) (screen_frames : List FrameRecord)
      (webcam_frames : Option (List FrameRecord)) (window_id session_id : String),
      List.Pairwise rowLe (List.insertionSort rowLe
        (rawRows events screen_frames webcam_frames window_id
          session_id).enum) ∧
      (write_events events screen_frames webcam_frames window_id
          session_id).Perm
        (rawRows events screen_frames webcam_frames window_id session_id) ∧
      List.Chain' (fun a b => a.t_ns ≤ b.t_ns)
        (write_events events screen_frames webcam_frames window_id
          session_id) ∧
      (∀ l' : List (Nat × Row),
        l'.Perm (rawRows events screen_frames webcam_frames window_id
          session_id).enum →
        List.Pairwise rowLe l' →
        l' = List.insertionSort rowLe
          (rawRows events screen_frames webcam_frames window_id
            session_id).enum) := by
  intro events screen_frames webcam_frames window_id session_id
  have hsorted : List.Pairwise rowLe (List.insertionSort rowLe
      (rawRows events screen_frames webcam_frames window_id session_id).enum) :=
    List.sorted_insertionSort rowLe _
  refine ⟨hsorted, ?_, ?_, ?_⟩
  · have := (List.perm_insertionSort rowLe
      (rawRows events screen_frames webcam_frames window_id
        session_id).enum).map Prod.snd
    rwa [List.enum_map_snd] at this
  · exact (hsorted.map Prod.snd (fun a b h => rowLe_t_le h)).chain'
  · intro l' hperm hsorted'
    refine sorted_perm_eq l' _ ?_
      (hperm.trans (List.perm_insertionSort rowLe _).symm) hsorted' hsorted
    refine ((hperm.map Prod.fst).nodup_iff).mpr ?_
    rw [List.enum_map_fst]
    exact List.nodup_range _

lemma dictUpsert_ne_nil (m : List (String × String)) (k v : String) :
    dictUpsert m k v ≠ [] := by
  unfold dictUpsert
  split_ifs with h
  · intro hm
    rcases m with _ | ⟨p, m⟩
    · simp at h
    · simp at hm
  · simp

lemma dictUpsert_mem_self (m : List (String × String)) (k v : String) :
    (k, v) ∈ dictUpsert m k v := by
  unfold dictUpsert
  split_ifs with h
  · obtain ⟨p, hp, hpk⟩ := List.any_eq_true.mp h
    have hpk' : p.1 = k := of_decide_eq_true hpk
    refine List.mem_map.mpr ⟨p, hp, ?_⟩
    rw [if_pos hpk']
  · simp

lemma dictUpsert_mem_of_ne {m : List (String × String)} {k' v' : String}
    (hm : (k', v') ∈ m) (k v : String) (hne : k' ≠ k) :
    (k', v') ∈ dictUpsert m k v := by
  unfold dictUpsert
  split_ifs with h
  · refine List.mem_map.mpr ⟨(k', v'), hm, ?_⟩
    rw [if_neg hne]
  · exact List.mem_append.mpr (Or.inl hm)

/-- C10: with the gate open and a window bbox of positive width and height,
every emitted event that carries mouse coordinates stores them as
window-relative fractions `(abs - origin) / extent` and preserves the
original absolute coordinates as strings under the metadata keys `abs_x` and
`abs_y`; events without mouse coordinates (`key_down`, `key_up`) are emitted
with all their fields unchanged. -/
theorem input_logger_window_relative :
    (∀ (b : WindowBbox) (window_id session_id : String) (now : Int)
        (a : EmitArgs) (x y : ℚ),
      a.mouse_x = some x → a.mouse_y = some y → 0 < b.width → 0 < b.height →
      ∃ md : List (String × String),
        inputLoggerEmit true (some b) window_id session_id now a = some
          { t_ns := now, event_type := a.event_type, key_code := a.key_code,
            mouse_x := some ((x - b.left) / b.width),
            mouse_y := some ((y - b.top) / b.height),
            mouse_button := a.mouse_button, delta := a.delta,
            frame_ref := none, window_id := some window_id,
            session_id := some session_id, metadata := some md } ∧
        ("abs_x", toString x) ∈ md ∧ ("abs_y", toString y) ∈ md) ∧
    (∀ (bbox : Option WindowBbox) (window_id session_id : String) (now : Int)
        (a : EmitArgs),
      a.mouse_x = none ∨ a.mouse_y = none →
      inputLoggerEmit true bbox window_id session_id now a = some
        { t_ns := now, event_type := a.event_type, key_code := a.key_code,
          mouse_x := a.mouse_x, mouse_y := a.mouse_y,
          mouse_button := a.mouse_button, delta := a.delta, frame_ref := none,
          window_id := some window_id, session_id := some session_id,
          metadata := if a.metadata.getD [] = [] then none
            else some (a.metadata.getD []) }) := by
  constructor
  · intro b window_id session_id now a x y hx hy hw hh
    refine ⟨dictUpsert (dictUpsert (a.metadata.getD []) "abs_x" (toString x))
      "abs_y" (toString y), ?_, ?_, ?_⟩
    · unfold inputLoggerEmit
      simp only [hx, hy, Bool.not_true, Bool.false_eq_true, if_false]
      rw [if_pos ⟨hw, hh⟩]
      rw [if_neg (dictUpsert_ne_nil _ _ _)]
    · exact dictUpsert_mem_of_ne
        (dictUpsert_mem_self (a.metadata.getD []) "abs_x" (toString x))
        "abs_y" (toString y) (by decide)
    · exact dictUpsert_mem_self _ "abs_y" (toString y)
  · intro bbox window_id session_id now a h
    unfold inputLoggerEmit
    rcases bbox with _ | b
    · rcases h with h | h <;>
        simp [h]
    · rcases h with h | h
      · rcases hmy : a.mouse_y with _ | y <;> simp [h, hmy]
      · rcases hmx : a.mouse_x with _ | x <;> simp [h, hmx]

/-- C10 witness: the input-logger theorem applied to a concrete mouse-move
event over a 100×50 bbox at origin, and to a concrete key-down event. -/
theorem input_logger_window_relative_witness :
    (∃ md : List (String × String),
      inputLoggerEmit true
          (some { left := 0, top := 0, width := 100, height := 50 })
          "win" "sess" 42
          { event_type := "mouse_move", mouse_x := some 25,
            mouse_y := some 10 } = some
        { t_ns := 42, event_type := "mouse_move", key_code := none,
          mouse_x := some (((25 : ℚ) - 0) / 100),
          mouse_y := some (((10 : ℚ) - 0) / 50),
          mouse_button := none, delta := none, frame_ref := none,
          window_id := some "win", session_id := some "sess",
          metadata := some md } ∧
      ("abs_x", toString (25 : ℚ)) ∈ md ∧ ("abs_y", toString (10 : ℚ)) ∈ md) ∧
    inputLoggerEmit true none "win" "sess" 43
        { event_type := "key_down", key_code := some 81 } = some
      { t_ns := 43, event_type := "key_down", key_code := some 81,
        mouse_x := none, mouse_y := none, mouse_button := none, delta := none,
        frame_ref := none, window_id := some "win", session_id := some "sess",
        metadata := none } :=
  ⟨input_logger_window_relative.1
      { left := 0, top := 0, width := 100, height := 50 } "win" "sess" 42
      { event_type := "mouse_move", mouse_x := some 25, mouse_y := some 10 }
      25 10 rfl rfl (by norm_num) (by norm_num),
   input_logger_window_relative.2 none "win" "sess" 43
      { event_type := "key_down", key_code := some 81 } (Or.inl rfl)⟩

/-- C9 witness: the uniqueness half of the stable-merge theorem applied to a
concrete three-row ledger (two input events at t = 5 and t = 3, one screen
frame at t = 4): the hand-written time-sorted arrangement of the decorated
rows is exactly the one the merge produces. -/
theorem write_events_stable_merge_witness :
    [(1, evRow (mkEv 3 "key_down")),
     (2, frRow "screen" "w" "s" (mkFr 0 4)),
     (0, evRow (mkEv 5 "key_down"))] =
      List.insertionSort rowLe
        (rawRows [mkEv 5 "key_down", mkEv 3 "key_down"] [mkFr 0 4] none
          "w" "s").enum :=
  (write_events_stable_merge [mkEv 5 "key_down", mkEv 3 "key_down"] [mkFr 0 4]
      none "w" "s").2.2.2
    _ (by decide) (by decide)
